import Mathlib

/-!
Verification of the securestore credential-store adapter.

Shallow embedding of `authentication/securestore/main.go` (package
`securestore`).  The package is a thin adapter over the external
`github.com/99designs/keyring` library: it validates a caller-selected
backend against an allow-list intersected with OS-reported availability,
gzip-compresses credential bytes before writing them under a fixed item
key, and decompresses on read.

Modelling choices:

* Bytes are `Nat`s; byte sequences are `List Nat`.
* The external keyring collaborator is modelled as explicit state
  (`Env`): the OS-reported backend list plus, per backend, an
  association list from item key to stored item.  Its `Get`/`Remove`
  operations fail with `keyNotFound` exactly when the key is absent.
* The Go `compress/gzip` package is an external library; it is modelled here as an
  executable gzip-container codec: the fixed 10-byte gzip header, a
  DEFLATE stream made of stored (uncompressed) blocks of at most 65535
  bytes, and the CRC-32/ISIZE trailer, all of which the decoder checks.
  This is a valid single-member gzip stream; the code of the adapter
  (`compressConfig`, `decompressConfig`, and everything above them) is
  translated from the Go source on top of this codec.
-/

set_option autoImplicit false

namespace SecureStore

/-- Errors surfaced by the adapter or its collaborators, mirroring the Go
error values: `ErrKeyringInvalid`, `ErrKeyringUnavailable`,
`keyring.ErrKeyNotFound`, the Windows size-limit error (with actual and
maximum sizes), the gzip header / data errors, and the wrapped macOS
Keychain permission error. -/
inductive SErr where
  | keyringInvalid
  | keyringUnavailable
  | keyNotFound
  | openFailed
  | tooLargeForWinCred (actual max : Nat)
  | gzipHeader
  | gzipData
  | keychainPermission (msg : String)
  deriving DecidableEq, Repr

/-! Section: CRC-32 (IEEE, reflected), bitwise formulation. -/

/-- One round of the reflected CRC-32 feedback: shift right one bit and
conditionally fold in the reversed polynomial `0xEDB88320`. -/
def crcRound (c : Nat) : Nat :=
  if c % 2 = 1 then (c / 2) ^^^ 0xEDB88320 else c / 2

/-- Iterate `crcRound` a given number of times. -/
def crcRounds : Nat → Nat → Nat
  | 0, c => c
  | n + 1, c => crcRounds n (crcRound c)

/-- Absorb one byte into the CRC register. -/
def crcByte (crc b : Nat) : Nat :=
  crcRounds 8 (crc ^^^ b % 256)

/-- CRC-32 of a byte sequence (initial register and final XOR
`0xFFFFFFFF`), as written by the gzip trailer. -/
def crc32 (data : List Nat) : Nat :=
  (data.foldl crcByte 0xFFFFFFFF) ^^^ 0xFFFFFFFF

/-! Section: DEFLATE stored blocks and the gzip container. -/

/-- Little-endian 32-bit encoding of `n % 2 ^ 32` as four bytes. -/
def le32 (n : Nat) : List Nat :=
  [n % 256, n / 256 % 256, n / 65536 % 256, n / 16777216 % 256]

/-- The `LEN`/`NLEN` header of a DEFLATE stored block: the 16-bit length
little-endian followed by its bitwise complement. -/
def storedLenBytes (n : Nat) : List Nat :=
  [n % 256, n / 256 % 256, 255 - n % 256, 255 - n / 256 % 256]

/-- DEFLATE stream consisting only of stored (type-00) blocks: each block
is a marker byte (`1` = final block with `BTYPE=00`, `0` = non-final),
the `LEN`/`NLEN` header, and the raw payload of at most 65535 bytes. -/
def deflateStored (data : List Nat) : List Nat :=
  if data.length ≤ 65535 then
    1 :: (storedLenBytes data.length ++ data)
  else
    0 :: (storedLenBytes 65535 ++ (data.take 65535 ++ deflateStored (data.drop 65535)))
termination_by data.length
decreasing_by simp; omega

/-- Decoder for a DEFLATE stream of stored blocks: returns the decoded
payload and the bytes following the final block, or `none` when the
marker byte, the `LEN`/`NLEN` complement check, or the available length
is wrong. -/
def inflateStored (l : List Nat) : Option (List Nat × List Nat) :=
  match l with
  | b :: l0 :: l1 :: n0 :: n1 :: rest =>
    let len := l0 + 256 * l1
    if n0 = 255 - l0 ∧ n1 = 255 - l1 ∧ len ≤ rest.length then
      if b = 1 then
        some (rest.take len, rest.drop len)
      else if b = 0 then
        match inflateStored (rest.drop len) with
        | some (tail, r) => some (rest.take len ++ tail, r)
        | none => none
      else none
    else none
  | _ => none
termination_by l.length
decreasing_by simp; omega

/-- The fixed 10-byte gzip member header the encoder writes: magic
`1f 8b`, method 8 (deflate), no flags, zero mtime, XFL 0, OS 255. -/
def gzipHeaderBytes : List Nat :=
  [31, 139, 8, 0, 0, 0, 0, 0, 0, 255]

/-- gzip compression: header, stored-block DEFLATE stream, then the
CRC-32 and ISIZE trailer words. -/
def gzipCompress (data : List Nat) : List Nat :=
  gzipHeaderBytes ++ (deflateStored data ++ (le32 (crc32 data) ++ le32 data.length))

/-- Consume and check the gzip member header (what `gzip.NewReader` does
on construction); returns the remainder of the stream. -/
def gzipReadHeader (creds : List Nat) : Option (List Nat) :=
  if creds.take 10 = gzipHeaderBytes then some (creds.drop 10) else none

/-- Inflate the DEFLATE body and check the CRC-32/ISIZE trailer (what
reading the gzip stream to EOF does). -/
def gzipInflateBody (body : List Nat) : Option (List Nat) :=
  match inflateStored body with
  | some (data, trailer) =>
    if trailer = le32 (crc32 data) ++ le32 data.length then some data else none
  | none => none

/-- Full gzip decompression of a single-member stream. -/
def gzipDecompress (creds : List Nat) : Option (List Nat) :=
  match gzipReadHeader creds with
  | some body => gzipInflateBody body
  | none => none

/-! Section: the byte codec, compressConfig and decompressConfig. -/

/-- Go function `compressConfig`: gzip-compress the credential bytes.  The Go
function writes through a `gzip.Writer` into an in-memory buffer; the
write and close cannot fail there, so the result is always `ok`. -/
def compressConfig (creds : List Nat) : Except SErr (List Nat) :=
  .ok (gzipCompress creds)

/-- Go function `decompressConfig`: `gzip.NewReader` (header parse) followed by
`io.ReadAll` (inflate plus trailer check); either failure is returned to
the caller. -/
def decompressConfig (creds : List Nat) : Except SErr (List Nat) :=
  match gzipReadHeader creds with
  | none => .error .gzipHeader
  | some body =>
    match gzipInflateBody body with
    | none => .error .gzipData
    | some output => .ok output

/-! Section: constants of the adapter. -/

/-- MacOS Keychain item kind. -/
def KindInternetPassword : String := "Internet password"

/-- The fixed item key/label under which credentials are stored. -/
def ItemKey : String := "RedHatSSO"

/-- Common OS default collection name. -/
def CollectionName : String := "login"

/-- Windows Credential Manager has a 2500 byte limit. -/
def MaxWindowsByteSize : Nat := 2500

/-- The string of `keyring.WinCredBackend`. -/
def WinCredBackend : String := "wincred"

/-- The string of `keyring.KeychainBackend`. -/
def KeychainBackend : String := "keychain"

/-- The string of `keyring.SecretServiceBackend`. -/
def SecretServiceBackend : String := "secret-service"

/-- The string of `keyring.PassBackend`. -/
def PassBackend : String := "pass"

/-- The fixed allow-list of backends. -/
def AllowedBackends : List String :=
  [WinCredBackend, KeychainBackend, SecretServiceBackend, PassBackend]

/-- A keyring item (`keyring.Item`): key, label, description and data. -/
structure Item where
  label : String
  key : String
  description : String
  data : List Nat
  deriving DecidableEq, Repr

/-- The fixed keyring configuration (`keyring.Config`) built by
`getKeyringConfig`; every field is a constant except the single allowed
backend.  (The Windows credential name-prefix field is rendered as
`winCredItemKey`.) -/
structure Config where
  allowedBackends : List String
  serviceName : String
  keychainName : String
  keychainTrustApplication : Bool
  keychainSynchronizable : Bool
  keychainAccessibleWhenUnlocked : Bool
  winCredItemKey : String
  libSecretCollectionName : String
  deriving DecidableEq, Repr

/-- Go function `getKeyringConfig`: the per-backend configuration, a pure function of
the backend with all other fields fixed. -/
def getKeyringConfig (backend : String) : Config :=
  { allowedBackends := [backend]
    serviceName := ItemKey
    keychainName := CollectionName
    keychainTrustApplication := true
    keychainSynchronizable := false
    keychainAccessibleWhenUnlocked := false
    winCredItemKey := ItemKey
    libSecretCollectionName := CollectionName }

/-! Section: model of the external keyring collaborator.  The external
library is state: the OS-reported list of available backends
(`keyring.AvailableBackends()`), and per backend an association list
from item key to stored item. -/

/-- Look up the first binding of `k` in an association list. -/
def lookupAssoc {α : Type} : List (String × α) → String → Option α
  | [], _ => none
  | (k2, v) :: t, k => if k2 = k then some v else lookupAssoc t k

/-- Overwrite the binding of `k` (or append it if absent). -/
def updateAssoc {α : Type} : List (String × α) → String → α → List (String × α)
  | [], k, v => [(k, v)]
  | (k2, v2) :: t, k, v =>
    if k2 = k then (k, v) :: t else (k2, v2) :: updateAssoc t k v

/-- Remove the first binding of `k`. -/
def removeAssoc {α : Type} : List (String × α) → String → List (String × α)
  | [], _ => []
  | (k2, v2) :: t, k => if k2 = k then t else (k2, v2) :: removeAssoc t k

/-- State of the collaborator: OS-reported backends and per-backend item
stores. -/
structure Env where
  osBackends : List String
  stores : List (String × List (String × Item))
  deriving DecidableEq, Repr

/-- The items in the store of one backend. -/
def Env.ringItems (env : Env) (backend : String) : List (String × Item) :=
  (lookupAssoc env.stores backend).getD []

/-- Model of `keyring.Open cfg`: picks the first configured backend available on
the OS, failing when none is. The returned handle is the chosen
name of the chosen backend. -/
def keyringOpen (env : Env) (cfg : Config) : Except SErr String :=
  match cfg.allowedBackends.find? (fun b => env.osBackends.contains b) with
  | some b => .ok b
  | none => .error .openFailed

/-- Model of `ring.Get key`: fetch an item, `keyNotFound` when absent. -/
def ringGet (env : Env) (ring key : String) : Except SErr Item :=
  match lookupAssoc (env.ringItems ring) key with
  | some i => .ok i
  | none => .error .keyNotFound

/-- Model of `ring.Set item`: overwrite the item under its key. -/
def ringSet (env : Env) (ring : String) (item : Item) : Except SErr Env :=
  .ok { env with
        stores := updateAssoc env.stores ring
          (updateAssoc (env.ringItems ring) item.key item) }

/-- Model of `ring.Remove key`: delete the item, `keyNotFound` when absent. -/
def ringRemove (env : Env) (ring key : String) : Except SErr Env :=
  match lookupAssoc (env.ringItems ring) key with
  | some _ =>
    .ok { env with stores := updateAssoc env.stores ring (removeAssoc (env.ringItems ring) key) }
  | none => .error .keyNotFound

/-- The message carried by an error value (Go `err.Error()`). -/
def SErr.message : SErr → String
  | .keyringInvalid => "keyring is invalid, expected one of: [wincred, keychain, secret-service, pass]"
  | .keyringUnavailable => "keyring is valid but is not available on the current OS"
  | .keyNotFound => "The specified item could not be found in the keyring"
  | .openFailed => "Specified keyring backend not available"
  | .tooLargeForWinCred a m =>
    "credentials are too large for Windows Credential Manager: " ++ toString a
      ++ " bytes (max " ++ toString m ++ ")"
  | .gzipHeader => "gzip: invalid header"
  | .gzipData => "gzip: invalid checksum"
  | .keychainPermission s => s

/-- Model of `strings.Contains`, via `String.splitOn`. -/
def stringContains (s sub : String) : Bool :=
  (s.splitOn sub).length > 1

/-! Section: the exported operations of the adapter. -/

/-- Go function `AvailableBackends`: intersection between available backends from the
OS and allowed backends, translated loop for loop. -/
def AvailableBackends (os : List String) : List String :=
  os.foldl
    (fun b avail =>
      AllowedBackends.foldl
        (fun b2 allowed => if avail = allowed then b2 ++ [allowed] else b2) b)
    []

/-- Go function `IsBackendAvailable`: the desired backend is available on the current
OS. -/
def IsBackendAvailable (os : List String) (backend : String) : Bool :=
  if backend = "" then false
  else (AvailableBackends os).contains backend

/-- Go function `ValidateBackend`: the requested backend is valid and available;
`none` means no error. -/
def ValidateBackend (os : List String) (backend : String) : Option SErr :=
  if backend = "" then some .keyringInvalid
  else
    let isAllowedBackend := AllowedBackends.contains backend
    if !isAllowedBackend then some .keyringInvalid
    else if !IsBackendAvailable os backend then some .keyringUnavailable
    else none

/-- Go function `UpsertConfigToKeyring`: validate, open, compress, apply the Windows
size ceiling, then write the compressed item under the fixed key. -/
def UpsertConfigToKeyring (env : Env) (backend : String) (creds : List Nat) :
    Except SErr Env :=
  match ValidateBackend env.osBackends backend with
  | some err => .error err
  | none =>
    match keyringOpen env (getKeyringConfig backend) with
    | .error err => .error err
    | .ok ring =>
      match compressConfig creds with
      | .error err => .error err
      | .ok compressed =>
        -- check if available backend contains windows credential manager and
        -- exceeds the byte limit
        if compressed.length > MaxWindowsByteSize ∧ backend = WinCredBackend then
          .error (.tooLargeForWinCred compressed.length MaxWindowsByteSize)
        else
          ringSet env ring
            { label := ItemKey
              key := ItemKey
              description := KindInternetPassword
              data := compressed }

/-- Go function `RemoveConfigFromKeyring`: validate, open, remove; a not-found error
is ignored (the key is already removed) and the macOS permission error
is wrapped with a troubleshooting hint. -/
def RemoveConfigFromKeyring (env : Env) (backend : String) : Except SErr Env :=
  match ValidateBackend env.osBackends backend with
  | some err => .error err
  | none =>
    match keyringOpen env (getKeyringConfig backend) with
    | .error err => .error err
    | .ok ring =>
      match ringRemove env ring ItemKey with
      | .ok env2 => .ok env2
      | .error err =>
        if err = SErr.keyNotFound then
          -- Ignore not found errors, key is already removed
          .ok env
        else if stringContains err.message "Keychain Error. (-25244)" then
          .error (.keychainPermission (err.message ++
            "\nThis application may not have permission to delete from the Keychain. Please check the permissions in the Keychain and try again"))
        else .error err

/-- Go function `GetConfigFromKeyring`: validate, open, fetch (not-found yields empty
credentials), return early on empty, otherwise decompress. -/
def GetConfigFromKeyring (env : Env) (backend : String) :
    Except SErr (List Nat) :=
  match ValidateBackend env.osBackends backend with
  | some err => .error err
  | none =>
    match keyringOpen env (getKeyringConfig backend) with
    | .error err => .error err
    | .ok ring =>
      match ringGet env ring ItemKey with
      | .error err =>
        if err = SErr.keyNotFound then
          -- Not found, continue: credentials stay empty, so return early
          .ok []
        else .error err
      | .ok i =>
        let credentials := i.data
        if credentials.length = 0 then
          -- No creds to decompress, return early
          .ok credentials
        else
          decompressConfig credentials

/-! Section: codec lemmas. -/

/-- Decoding one stored block: for a payload that fits in a block, the
decoder consumes exactly the marker byte, the `LEN`/`NLEN` header and the
payload, then behaves according to the marker. -/
theorem inflateStored_block (b : Nat) (payload rest : List Nat)
    (h : payload.length ≤ 65535) :
    inflateStored (b :: (storedLenBytes payload.length ++ (payload ++ rest))) =
      if b = 1 then some (payload, rest)
      else if b = 0 then
        match inflateStored rest with
        | some (tail, r) => some (payload ++ tail, r)
        | none => none
      else none := by
  have hlen : payload.length % 256 + 256 * (payload.length / 256 % 256) = payload.length := by
    omega
  simp only [storedLenBytes, List.cons_append, List.nil_append]
  rw [inflateStored]
  simp only [hlen]
  rw [if_pos ⟨trivial, trivial, by simp⟩]
  rw [List.take_left, List.drop_left]

/-- Fuel-indexed round trip for the stored-block DEFLATE stream. -/
theorem inflate_deflate_aux :
    ∀ (n : Nat) (data rest : List Nat), data.length ≤ n →
      inflateStored (deflateStored data ++ rest) = some (data, rest) := by
  have small : ∀ (data rest : List Nat), data.length ≤ 65535 →
      inflateStored (deflateStored data ++ rest) = some (data, rest) := by
    intro data rest hle
    rw [deflateStored, if_pos hle]
    have hb := inflateStored_block 1 data rest hle
    simp only [List.cons_append, List.append_assoc] at hb ⊢
    simpa using hb
  intro n
  induction n with
  | zero =>
    intro data rest h
    exact small data rest (by omega)
  | succ n ih =>
    intro data rest h
    by_cases hle : data.length ≤ 65535
    · exact small data rest hle
    · rw [deflateStored, if_neg hle]
      have htk : (data.take 65535).length = 65535 := by
        simp only [List.length_take]
        omega
      have hb := inflateStored_block 0 (data.take 65535)
        (deflateStored (data.drop 65535) ++ rest) (le_of_eq htk)
      rw [htk] at hb
      have hrec := ih (data.drop 65535) rest (by simp only [List.length_drop]; omega)
      rw [hrec] at hb
      simp only [List.cons_append, List.append_assoc] at hb ⊢
      simpa [List.take_append_drop] using hb

/-- Round trip for the stored-block DEFLATE stream: decoding the encoding
of `data` yields `data` and leaves the following bytes untouched. -/
theorem inflateStored_deflateStored (data rest : List Nat) :
    inflateStored (deflateStored data ++ rest) = some (data, rest) :=
  inflate_deflate_aux data.length data rest le_rfl

/-- gzip round trip: decompressing the compression of any byte sequence
yields that sequence. -/
theorem gzipDecompress_gzipCompress (data : List Nat) :
    gzipDecompress (gzipCompress data) = some data := by
  have h10 : gzipHeaderBytes.length = 10 := rfl
  unfold gzipDecompress gzipCompress gzipReadHeader
  rw [List.take_left' h10, if_pos rfl, List.drop_left' h10]
  show gzipInflateBody (deflateStored data ++ (le32 (crc32 data) ++ le32 data.length)) = some data
  unfold gzipInflateBody
  rw [inflateStored_deflateStored]
  simp

/-- gzip output always starts with the fixed header, hence is never
empty. -/
theorem gzipCompress_ne_nil (data : List Nat) : gzipCompress data ≠ [] := by
  simp [gzipCompress, gzipHeaderBytes]

/-- Lemma: `decompressConfig` succeeds exactly as `gzipDecompress` does. -/
theorem decompressConfig_ok_of (creds out : List Nat)
    (h : gzipDecompress creds = some out) :
    decompressConfig creds = .ok out := by
  unfold gzipDecompress at h
  unfold decompressConfig
  cases hh : gzipReadHeader creds with
  | none => rw [hh] at h; simp at h
  | some body =>
    rw [hh] at h
    simp at h
    simp [h]

/-- Lemma: `decompressConfig` fails exactly as `gzipDecompress` does. -/
theorem decompressConfig_error_of (creds : List Nat)
    (h : gzipDecompress creds = none) :
    ∃ e, decompressConfig creds = .error e := by
  unfold gzipDecompress at h
  unfold decompressConfig
  cases hh : gzipReadHeader creds with
  | none => exact ⟨.gzipHeader, rfl⟩
  | some body =>
    rw [hh] at h
    simp at h
    refine ⟨.gzipData, ?_⟩
    simp [h]

/-! Section: association-list and validation lemmas. -/

theorem lookupAssoc_updateAssoc_self {α : Type} (l : List (String × α)) (k : String) (v : α) :
    lookupAssoc (updateAssoc l k v) k = some v := by
  induction l with
  | nil => simp [updateAssoc, lookupAssoc]
  | cons hd tl ih =>
    obtain ⟨k2, v2⟩ := hd
    by_cases hk : k2 = k
    · simp [updateAssoc, hk, lookupAssoc]
    · simp [updateAssoc, hk, lookupAssoc, ih]

/-- The inner loop of `AvailableBackends` over the allow-list appends the
OS-reported backend exactly when it is allowed. -/
theorem availableBackends_inner (avail : String) (acc : List String) :
    AllowedBackends.foldl
        (fun b2 allowed => if avail = allowed then b2 ++ [allowed] else b2) acc
      = acc ++ (if AllowedBackends.contains avail then [avail] else []) := by
  by_cases h1 : avail = WinCredBackend <;>
    by_cases h2 : avail = KeychainBackend <;>
      by_cases h3 : avail = SecretServiceBackend <;>
        by_cases h4 : avail = PassBackend <;>
          simp_all [AllowedBackends, WinCredBackend, KeychainBackend,
            SecretServiceBackend, PassBackend]

/-- The outer loop of `AvailableBackends` is a filter by allow-list
membership. -/
theorem availableBackends_outer (os acc : List String) :
    os.foldl
        (fun b avail =>
          AllowedBackends.foldl
            (fun b2 allowed => if avail = allowed then b2 ++ [allowed] else b2) b)
        acc
      = acc ++ os.filter (fun s => AllowedBackends.contains s) := by
  induction os generalizing acc with
  | nil => simp
  | cons hd tl ih =>
    simp only [List.foldl_cons, List.filter_cons]
    rw [availableBackends_inner]
    by_cases h : hd ∈ AllowedBackends
    · simp [h, ih]
    · simp [h, ih]

/-- Lemma: `AvailableBackends` is the OS-reported list filtered by allow-list
membership, in OS-reported order. -/
theorem AvailableBackends_eq_filter (os : List String) :
    AvailableBackends os = os.filter (fun s => AllowedBackends.contains s) := by
  unfold AvailableBackends
  rw [availableBackends_outer]
  simp

/-- For a non-empty backend name, availability is membership in the
filtered OS-reported list. -/
theorem isBackendAvailable_iff (os : List String) (b : String) (hb : b ≠ "") :
    IsBackendAvailable os b = true ↔ (b ∈ os ∧ b ∈ AllowedBackends) := by
  unfold IsBackendAvailable
  rw [if_neg hb, AvailableBackends_eq_filter]
  simp [List.mem_filter]

/-- Successful validation means the backend is allowed and OS-reported. -/
theorem validate_ok_mem (os : List String) (b : String)
    (h : ValidateBackend os b = none) : b ∈ AllowedBackends ∧ b ∈ os := by
  unfold ValidateBackend at h
  by_cases hb : b = ""
  · simp [hb] at h
  · rw [if_neg hb] at h
    by_cases hall : b ∈ AllowedBackends
    · by_cases hos : b ∈ os
      · exact ⟨hall, hos⟩
      · exfalso
        have hav : IsBackendAvailable os b = false := by
          rw [Bool.eq_false_iff]
          intro hc
          exact hos ((isBackendAvailable_iff os b hb).mp hc).1
        simp [hall, hav] at h
    · exfalso
      simp [hall] at h

/-- Validation succeeds for an allowed, OS-reported backend. -/
theorem validate_ok_of_mem (os : List String) (b : String)
    (hall : b ∈ AllowedBackends) (hos : b ∈ os) :
    ValidateBackend os b = none := by
  have hb : b ≠ "" := by
    intro hb
    rw [hb] at hall
    simp [AllowedBackends, WinCredBackend, KeychainBackend,
      SecretServiceBackend, PassBackend] at hall
  have hav : IsBackendAvailable os b = true :=
    (isBackendAvailable_iff os b hb).mpr ⟨hos, hall⟩
  unfold ValidateBackend
  rw [if_neg hb]
  simp [hall, hav]

/-- Opening the keyring with the fixed one-backend configuration succeeds
when the backend is OS-reported. -/
theorem keyringOpen_ok (env : Env) (b : String) (h : b ∈ env.osBackends) :
    keyringOpen env (getKeyringConfig b) = .ok b := by
  unfold keyringOpen getKeyringConfig
  simp only [List.find?]
  rw [show env.osBackends.contains b = true by simpa using h]

/-- The length of gzip output on small inputs: 10-byte header, one
5-byte stored-block frame, the payload, and the 8-byte trailer. -/
theorem gzipCompress_length (x : List Nat) (h : x.length ≤ 65535) :
    (gzipCompress x).length = x.length + 23 := by
  unfold gzipCompress
  rw [deflateStored, if_pos h]
  simp [gzipHeaderBytes, storedLenBytes, le32]
  try omega

/-- No allowed backend name is the empty string. -/
theorem mem_allowed_ne_empty (b : String) (h : b ∈ AllowedBackends) : b ≠ "" := by
  intro hb
  rw [hb] at h
  simp [AllowedBackends, WinCredBackend, KeychainBackend,
    SecretServiceBackend, PassBackend] at h

/-! Section: claim theorems. -/

/-- C2: for every byte sequence `x`, including the empty one,
`compressConfig x` succeeds, and `decompressConfig` of its result
succeeds and returns bytes equal to `x`. -/
theorem c2_codec_roundtrip (x : List Nat) :
    ∃ c, compressConfig x = .ok c ∧ decompressConfig c = .ok x :=
  ⟨gzipCompress x, rfl, decompressConfig_ok_of _ _ (gzipDecompress_gzipCompress x)⟩

/-- C3: `ValidateBackend` returns the invalid-backend error for the
empty string or any string outside the allow-list, the unavailable error
for an allowed backend the OS does not report, and no error otherwise. -/
theorem c3_validateBackend_spec (os : List String) (b : String) :
    ((b = "" ∨ b ∉ AllowedBackends) →
      ValidateBackend os b = some SErr.keyringInvalid) ∧
    (b ∈ AllowedBackends → b ∉ os →
      ValidateBackend os b = some SErr.keyringUnavailable) ∧
    (b ∈ AllowedBackends → b ∈ os → ValidateBackend os b = none) := by
  refine ⟨?_, ?_, ?_⟩
  · rintro (hb | hb)
    · simp [ValidateBackend, hb]
    · unfold ValidateBackend
      by_cases hbe : b = ""
      · simp [hbe]
      · rw [if_neg hbe]
        simp [hb]
  · intro hall hos
    have hbe : b ≠ "" := mem_allowed_ne_empty b hall
    have hav : IsBackendAvailable os b = false := by
      rw [Bool.eq_false_iff]
      intro hc
      exact hos ((isBackendAvailable_iff os b hbe).mp hc).1
    unfold ValidateBackend
    rw [if_neg hbe]
    simp [hall, hav]
  · exact fun hall hos => validate_ok_of_mem os b hall hos

/-- Witness for C3 at concrete inputs: an allowed backend the OS does
not report is rejected as unavailable. -/
theorem c3_validateBackend_witness :
    ValidateBackend ["keychain"] "wincred" = some SErr.keyringUnavailable :=
  (c3_validateBackend_spec ["keychain"] "wincred").2.1 (by decide) (by decide)

/-- C5: `AvailableBackends` is exactly the OS-reported list filtered by
allow-list membership (in OS-reported order), its members all lie in the
allow-list, and it has no duplicates whenever the OS-reported list has
none. -/
theorem c5_availableBackends_spec (os : List String) :
    AvailableBackends os = os.filter (fun s => AllowedBackends.contains s) ∧
    (∀ x ∈ AvailableBackends os, x ∈ AllowedBackends) ∧
    (os.Nodup → (AvailableBackends os).Nodup) := by
  refine ⟨AvailableBackends_eq_filter os, ?_, ?_⟩
  · intro x hx
    rw [AvailableBackends_eq_filter] at hx
    have := List.mem_filter.mp hx
    simpa using this.2
  · intro hnd
    rw [AvailableBackends_eq_filter]
    exact hnd.filter _

/-- Witness for C5 at a concrete OS-reported list. -/
theorem c5_availableBackends_witness :
    AvailableBackends ["file", "pass", "wincred"] = ["pass", "wincred"] ∧
    (AvailableBackends ["file", "pass", "wincred"]).Nodup := by
  refine ⟨by decide, (c5_availableBackends_spec ["file", "pass", "wincred"]).2.2 (by decide)⟩

/-- C8: when validation fails, each of the three operations returns the
validation error verbatim; in this state-passing embedding the error
result carries no new store state, so no store operation occurs. -/
theorem c8_validation_error_propagates (env : Env) (b : String)
    (x : List Nat) (e : SErr)
    (h : ValidateBackend env.osBackends b = some e) :
    UpsertConfigToKeyring env b x = .error e ∧
    GetConfigFromKeyring env b = .error e ∧
    RemoveConfigFromKeyring env b = .error e := by
  refine ⟨?_, ?_, ?_⟩
  · unfold UpsertConfigToKeyring
    rw [h]
  · unfold GetConfigFromKeyring
    rw [h]
  · unfold RemoveConfigFromKeyring
    rw [h]

/-- Witness for C8 at concrete inputs: a backend outside the allow-list
is rejected identically by all three operations. -/
theorem c8_validation_error_witness :
    UpsertConfigToKeyring ⟨["pass"], []⟩ "file" [1] = .error SErr.keyringInvalid ∧
    GetConfigFromKeyring ⟨["pass"], []⟩ "file" = .error SErr.keyringInvalid ∧
    RemoveConfigFromKeyring ⟨["pass"], []⟩ "file" = .error SErr.keyringInvalid :=
  c8_validation_error_propagates ⟨["pass"], []⟩ "file" [1] SErr.keyringInvalid (by decide)

/-! Section: upsert and get analysis. -/

/-- The item written by a successful upsert. -/
def storedItem (x : List Nat) : Item :=
  { label := ItemKey
    key := ItemKey
    description := KindInternetPassword
    data := gzipCompress x }

/-- The store state after a successful upsert. -/
def envAfterUpsert (env : Env) (b : String) (x : List Nat) : Env :=
  { env with
    stores := updateAssoc env.stores b
      (updateAssoc (env.ringItems b) ItemKey (storedItem x)) }

/-- Once validation passes, `UpsertConfigToKeyring` either hits the
Windows size ceiling or writes the compressed item. -/
theorem upsert_eq_of_valid (env : Env) (b : String) (x : List Nat)
    (hv : ValidateBackend env.osBackends b = none) :
    UpsertConfigToKeyring env b x =
      if (gzipCompress x).length > MaxWindowsByteSize ∧ b = WinCredBackend then
        .error (.tooLargeForWinCred (gzipCompress x).length MaxWindowsByteSize)
      else
        .ok (envAfterUpsert env b x) := by
  have hos := (validate_ok_mem _ _ hv).2
  unfold UpsertConfigToKeyring
  rw [hv, keyringOpen_ok env b hos]
  rfl

/-- A successful upsert passed validation and produced exactly the
updated store. -/
theorem upsert_ok_elim (env : Env) (b : String) (x : List Nat) (env2 : Env)
    (h : UpsertConfigToKeyring env b x = .ok env2) :
    ValidateBackend env.osBackends b = none ∧ env2 = envAfterUpsert env b x := by
  cases hv : ValidateBackend env.osBackends b with
  | some e =>
    unfold UpsertConfigToKeyring at h
    rw [hv] at h
    simp at h
  | none =>
    refine ⟨rfl, ?_⟩
    rw [upsert_eq_of_valid env b x hv] at h
    by_cases hc : (gzipCompress x).length > MaxWindowsByteSize ∧ b = WinCredBackend
    · rw [if_pos hc] at h
      simp at h
    · rw [if_neg hc] at h
      simpa using h.symm

/-- The updated store holds the freshly written item under the fixed
key. -/
theorem ringItems_envAfterUpsert (env : Env) (b : String) (x : List Nat) :
    lookupAssoc ((envAfterUpsert env b x).ringItems b) ItemKey = some (storedItem x) := by
  unfold envAfterUpsert Env.ringItems
  simp only [lookupAssoc_updateAssoc_self, Option.getD_some]

/-- Once validation passes, `GetConfigFromKeyring` is determined by the
item (or absence of one) under the fixed key. -/
theorem get_eq_of_valid (env : Env) (b : String)
    (hv : ValidateBackend env.osBackends b = none) :
    GetConfigFromKeyring env b =
      match lookupAssoc (env.ringItems b) ItemKey with
      | none => .ok []
      | some i =>
        if i.data.length = 0 then .ok i.data else decompressConfig i.data := by
  have hos := (validate_ok_mem _ _ hv).2
  unfold GetConfigFromKeyring ringGet
  cases hl : lookupAssoc (env.ringItems b) ItemKey with
  | none => simp only [hv, keyringOpen_ok env b hos, hl, if_true]
  | some i => simp only [hv, keyringOpen_ok env b hos, hl, if_true]

/-- Once validation passes, `RemoveConfigFromKeyring` is determined by
the presence of an item under the fixed key: deleting an absent key
still succeeds. -/
theorem remove_eq_of_valid (env : Env) (b : String)
    (hv : ValidateBackend env.osBackends b = none) :
    RemoveConfigFromKeyring env b =
      match lookupAssoc (env.ringItems b) ItemKey with
      | none => .ok env
      | some _ =>
        .ok { env with
              stores := updateAssoc env.stores b
                (removeAssoc (env.ringItems b) ItemKey) } := by
  have hos := (validate_ok_mem _ _ hv).2
  unfold RemoveConfigFromKeyring ringRemove
  cases hl : lookupAssoc (env.ringItems b) ItemKey with
  | none => simp only [hv, keyringOpen_ok env b hos, hl, if_true]
  | some i => simp only [hv, keyringOpen_ok env b hos, hl, if_true]

/-- Reading back after a successful write returns the original bytes:
the stored blob is non-empty (gzip framing), so the read decompresses
it. -/
theorem upsert_then_get (env : Env) (b : String) (x : List Nat) (env2 : Env)
    (h : UpsertConfigToKeyring env b x = .ok env2) :
    GetConfigFromKeyring env2 b = .ok x := by
  obtain ⟨hv, henv⟩ := upsert_ok_elim env b x env2 h
  subst henv
  rw [get_eq_of_valid (envAfterUpsert env b x) b hv, ringItems_envAfterUpsert]
  have hlen : ¬ (storedItem x).data.length = 0 := by
    simp [storedItem, gzipCompress, gzipHeaderBytes]
  show (if (storedItem x).data.length = 0 then Except.ok (storedItem x).data
        else decompressConfig (storedItem x).data) = Except.ok x
  rw [if_neg hlen]
  exact decompressConfig_ok_of _ _ (gzipDecompress_gzipCompress x)

/-- C1: if `UpsertConfigToKeyring` succeeds on some backend, an
immediately following `GetConfigFromKeyring` on that backend succeeds and
returns bytes equal to the original input (stored gzip-compressed,
decompressed on read). -/
theorem c1_upsert_then_get_roundtrip (env : Env) (b : String) (x : List Nat)
    (env2 : Env) (h : UpsertConfigToKeyring env b x = .ok env2) :
    GetConfigFromKeyring env2 b = .ok x :=
  upsert_then_get env b x env2 h

/-- Witness for C1 at concrete inputs. -/
theorem c1_upsert_then_get_witness :
    GetConfigFromKeyring (envAfterUpsert ⟨["pass"], []⟩ "pass" [7, 8]) "pass" =
      .ok [7, 8] :=
  c1_upsert_then_get_roundtrip ⟨["pass"], []⟩ "pass" [7, 8]
    (envAfterUpsert ⟨["pass"], []⟩ "pass" [7, 8])
    (by rw [upsert_eq_of_valid _ _ _ (by decide)]
        rw [if_neg (fun hc => absurd hc.2 (by decide))])

/-- C4: for a validated backend, the Windows Credential Manager backend
alone enforces the 2500-byte ceiling on the compressed payload: above it
the upsert fails with the size error (and performs no write — the error
carries no new store state); at or below it, and for every other backend
regardless of compressed length, the upsert proceeds to the write. -/
theorem c4_windows_size_limit (env : Env) (b : String) (x : List Nat)
    (hv : ValidateBackend env.osBackends b = none) :
    (b = WinCredBackend → (gzipCompress x).length > MaxWindowsByteSize →
      UpsertConfigToKeyring env b x =
        .error (.tooLargeForWinCred (gzipCompress x).length MaxWindowsByteSize)) ∧
    (b = WinCredBackend → (gzipCompress x).length ≤ MaxWindowsByteSize →
      UpsertConfigToKeyring env b x = .ok (envAfterUpsert env b x)) ∧
    (b ≠ WinCredBackend →
      UpsertConfigToKeyring env b x = .ok (envAfterUpsert env b x)) := by
  rw [upsert_eq_of_valid env b x hv]
  refine ⟨?_, ?_, ?_⟩
  · intro hb hlen
    rw [if_pos ⟨hlen, hb⟩]
  · intro hb hlen
    rw [if_neg (fun hc => absurd hlen (by omega))]
  · intro hb
    rw [if_neg (fun hc => hb hc.2)]

/-- Witness for C4 at concrete inputs: 2600 raw bytes compress (in this
codec) to 2623 bytes, above the ceiling, and the upsert fails with the
size error. -/
theorem c4_windows_size_limit_witness :
    UpsertConfigToKeyring ⟨["wincred"], []⟩ "wincred" (List.replicate 2600 65) =
      .error (.tooLargeForWinCred (gzipCompress (List.replicate 2600 65)).length
        MaxWindowsByteSize) :=
  (c4_windows_size_limit ⟨["wincred"], []⟩ "wincred" (List.replicate 2600 65)
      (by decide)).1 rfl
    (by rw [gzipCompress_length _ (by rw [List.length_replicate]; omega),
          List.length_replicate]
        decide)

/-- C6: for a validated backend whose store has no item under the fixed
key, `GetConfigFromKeyring` returns the empty byte result with no
error. -/
theorem c6_get_absent_empty (env : Env) (b : String)
    (hv : ValidateBackend env.osBackends b = none)
    (habs : lookupAssoc (env.ringItems b) ItemKey = none) :
    GetConfigFromKeyring env b = .ok [] := by
  rw [get_eq_of_valid env b hv, habs]

/-- Witness for C6 at concrete inputs. -/
theorem c6_get_absent_witness :
    GetConfigFromKeyring ⟨["pass"], []⟩ "pass" = .ok [] :=
  c6_get_absent_empty ⟨["pass"], []⟩ "pass" (by decide) (by decide)

/-- C7: for a validated backend whose store has no item under the fixed
key, `RemoveConfigFromKeyring` succeeds (idempotent delete), leaving the
state unchanged. -/
theorem c7_remove_absent_ok (env : Env) (b : String)
    (hv : ValidateBackend env.osBackends b = none)
    (habs : lookupAssoc (env.ringItems b) ItemKey = none) :
    RemoveConfigFromKeyring env b = .ok env := by
  rw [remove_eq_of_valid env b hv, habs]

/-- Witness for C7 at concrete inputs. -/
theorem c7_remove_absent_witness :
    RemoveConfigFromKeyring ⟨["pass"], []⟩ "pass" = .ok ⟨["pass"], []⟩ :=
  c7_remove_absent_ok ⟨["pass"], []⟩ "pass" (by decide) (by decide)

/-- C9: for a validated backend whose store holds a non-empty value
under the fixed key that is not a well-formed gzip stream,
`GetConfigFromKeyring` surfaces an error. -/
theorem c9_get_corrupt_errors (env : Env) (b : String) (it : Item)
    (hv : ValidateBackend env.osBackends b = none)
    (hit : lookupAssoc (env.ringItems b) ItemKey = some it)
    (hne : it.data ≠ [])
    (hbad : gzipDecompress it.data = none) :
    ∃ e, GetConfigFromKeyring env b = .error e := by
  rw [get_eq_of_valid env b hv, hit]
  show ∃ e,
    (if it.data.length = 0 then Except.ok it.data else decompressConfig it.data) =
      .error e
  rw [if_neg (by simpa using hne)]
  exact decompressConfig_error_of it.data hbad

/-- Witness for C9 at concrete inputs: the stored bytes `[1, 2, 3]` are
not a gzip stream and the read fails. -/
theorem c9_get_corrupt_witness :
    ∃ e,
      GetConfigFromKeyring
        ⟨["pass"],
          [("pass", [(ItemKey, ⟨ItemKey, ItemKey, KindInternetPassword, [1, 2, 3]⟩)])]⟩
        "pass" = .error e :=
  c9_get_corrupt_errors
    ⟨["pass"],
      [("pass", [(ItemKey, ⟨ItemKey, ItemKey, KindInternetPassword, [1, 2, 3]⟩)])]⟩
    "pass" ⟨ItemKey, ItemKey, KindInternetPassword, [1, 2, 3]⟩
    (by decide) (by decide) (by decide) (by decide)

/-- Counterexample to C10 as stated: upserting the EMPTY byte sequence
succeeds and stores an item (whose blob is non-empty), yet the
immediately following get returns a zero-length result — so a
zero-length read result does not unambiguously indicate that no
adapter-written item exists. -/
theorem c10_counterexample :
    UpsertConfigToKeyring ⟨["pass"], []⟩ "pass" [] =
        .ok (envAfterUpsert ⟨["pass"], []⟩ "pass" []) ∧
    lookupAssoc ((envAfterUpsert ⟨["pass"], []⟩ "pass" []).ringItems "pass")
        ItemKey = some (storedItem []) ∧
    GetConfigFromKeyring (envAfterUpsert ⟨["pass"], []⟩ "pass" []) "pass" =
        .ok [] := by
  have hup : UpsertConfigToKeyring ⟨["pass"], []⟩ "pass" [] =
      .ok (envAfterUpsert ⟨["pass"], []⟩ "pass" []) := by
    rw [upsert_eq_of_valid _ _ _ (by decide)]
    rw [if_neg (fun hc => absurd hc.2 (by decide))]
  exact ⟨hup, ringItems_envAfterUpsert _ _ _, upsert_then_get _ _ _ _ hup⟩

/-- C10 (amended): `compressConfig` output is never empty, any blob
stored by a successful upsert is non-empty, and for non-empty caller
input a read after a successful write never returns a zero-length
result.  (The unamended consequence fails for empty caller input, which
decompresses back to a zero-length result although an item exists.) -/
theorem c10_compressed_nonempty (x : List Nat) (env : Env) (b : String)
    (env2 : Env) :
    (∀ c, compressConfig x = .ok c → c ≠ []) ∧
    (UpsertConfigToKeyring env b x = .ok env2 →
      ∃ it, lookupAssoc (env2.ringItems b) ItemKey = some it ∧ it.data ≠ []) ∧
    (x ≠ [] → UpsertConfigToKeyring env b x = .ok env2 →
      GetConfigFromKeyring env2 b ≠ .ok []) := by
  refine ⟨?_, ?_, ?_⟩
  · intro c hc
    have hcg : gzipCompress x = c := by simpa [compressConfig] using hc
    rw [← hcg]
    exact gzipCompress_ne_nil x
  · intro h
    obtain ⟨hv, henv⟩ := upsert_ok_elim env b x env2 h
    subst henv
    exact ⟨storedItem x, ringItems_envAfterUpsert env b x,
      by simp [storedItem, gzipCompress, gzipHeaderBytes]⟩
  · intro hx h
    rw [upsert_then_get env b x env2 h]
    simp [hx]

/-- Witness for the amended C10 at concrete inputs. -/
theorem c10_compressed_nonempty_witness :
    GetConfigFromKeyring (envAfterUpsert ⟨["pass"], []⟩ "pass" [9]) "pass" ≠
      .ok [] :=
  (c10_compressed_nonempty [9] ⟨["pass"], []⟩ "pass"
      (envAfterUpsert ⟨["pass"], []⟩ "pass" [9])).2.2 (by decide)
    (by rw [upsert_eq_of_valid _ _ _ (by decide)]
        rw [if_neg (fun hc => absurd hc.2 (by decide))])

end SecureStore
